import Mathlib

/-!
Shallow embedding of the clip storage service (`src/app.py`).

Blob contents are byte lists (`List Nat`, each byte `< 256` in practice).
The metadata backing file is modelled by `MetaFile`; the blob directory by
an association list from stored filename to content.  Randomness
(`uuid.uuid4`) and the clock (`datetime.now`) are inputs of the handlers.
-/

/-- Truncate to a 32-bit word (`% 2^32`). -/
def w32 (n : Nat) : Nat := n % 4294967296

/-- 32-bit right rotation. -/
def rotr32 (n x : Nat) : Nat := w32 ((x >>> n) ||| (x <<< (32 - n)))

/-- SHA-256 big sigma 0. -/
def bigS0 (x : Nat) : Nat := rotr32 2 x ^^^ rotr32 13 x ^^^ rotr32 22 x

/-- SHA-256 big sigma 1. -/
def bigS1 (x : Nat) : Nat := rotr32 6 x ^^^ rotr32 11 x ^^^ rotr32 25 x

/-- SHA-256 small sigma 0. -/
def smallS0 (x : Nat) : Nat := rotr32 7 x ^^^ rotr32 18 x ^^^ (x >>> 3)

/-- SHA-256 small sigma 1. -/
def smallS1 (x : Nat) : Nat := rotr32 17 x ^^^ rotr32 19 x ^^^ (x >>> 10)

/-- SHA-256 choice function. -/
def chF (e f g : Nat) : Nat := (e &&& f) ^^^ ((4294967295 ^^^ e) &&& g)

/-- SHA-256 majority function. -/
def majF (a b c : Nat) : Nat := (a &&& b) ^^^ (a &&& c) ^^^ (b &&& c)

/-- The eight 32-bit working registers / hash state of SHA-256. -/
structure Hash8 where
  a : Nat
  b : Nat
  c : Nat
  d : Nat
  e : Nat
  f : Nat
  g : Nat
  h : Nat
deriving DecidableEq, Repr

/-- The 64 SHA-256 round constants (decimal values of the standard table). -/
def shaK : List Nat :=
  [1116352408, 1899447441, 3049323471, 3921009573, 961987163,
   1508970993, 2453635748, 2870763221, 3624381080, 310598401,
   607225278, 1426881987, 1925078388, 2162078206, 2614888103,
   3248222580, 3835390401, 4022224774, 264347078, 604807628,
   770255983, 1249150122, 1555081692, 1996064986, 2554220882,
   2821834349, 2952996808, 3210313671, 3336571891, 3584528711,
   113926993, 338241895, 666307205, 773529912, 1294757372,
   1396182291, 1695183700, 1986661051, 2177026350, 2456956037,
   2730485921, 2820302411, 3259730800, 3345764771, 3516065817,
   3600352804, 4094571909, 275423344, 430227734, 506948616,
   659060556, 883997877, 958139571, 1322822218, 1537002063,
   1747873779, 1955562222, 2024104815, 2227730452, 2361852424,
   2428436474, 2756734187, 3204031479, 3329325298]

/-- The SHA-256 initial hash value (decimal values of the standard table). -/
def shaH0 : Hash8 :=
  ⟨1779033703, 3144134277, 1013904242, 2773480762,
   1359893119, 2600822924, 528734635, 1541459225⟩

/-- One SHA-256 compression round. -/
def shaRound (r : Hash8) (k w : Nat) : Hash8 :=
  let t1 := w32 (r.h + bigS1 r.e + chF r.e r.f r.g + k + w)
  let t2 := w32 (bigS0 r.a + majF r.a r.b r.c)
  ⟨w32 (t1 + t2), r.a, r.b, r.c, w32 (r.d + t1), r.e, r.f, r.g⟩

/-- Big-endian word from a list of bytes. -/
def wordBE (bs : List Nat) : Nat := bs.foldl (fun acc b => acc * 256 + b) 0

/-- `n` big-endian bytes of `v`. -/
def bytesBE : Nat → Nat → List Nat
  | 0, _ => []
  | n + 1, v => (v >>> (8 * n)) % 256 :: bytesBE n v

/-- Split a list into chunks of `n` elements (fuel-driven so it reduces). -/
def chunkAux (n : Nat) : Nat → List α → List (List α)
  | _, [] => []
  | 0, _ :: _ => []
  | fuel + 1, x :: xs => (x :: xs).take n :: chunkAux n fuel ((x :: xs).drop n)

/-- Split a list into chunks of `n` elements. -/
def chunkList (n : Nat) (l : List α) : List (List α) := chunkAux n l.length l

/-- Extend the 16-word message schedule by `fuel` further words. -/
def msgScheduleExt : Nat → List Nat → List Nat
  | 0, ws => ws
  | fuel + 1, ws =>
    let t := ws.length
    let wNew := w32 (smallS1 (ws.getD (t - 2) 0) + ws.getD (t - 7) 0 +
                     smallS0 (ws.getD (t - 15) 0) + ws.getD (t - 16) 0)
    msgScheduleExt fuel (ws ++ [wNew])

/-- Process one 64-byte block. -/
def processBlock (st : Hash8) (block : List Nat) : Hash8 :=
  let ws := msgScheduleExt 48 ((chunkList 4 block).map wordBE)
  let r := (shaK.zip ws).foldl (fun r kw => shaRound r kw.1 kw.2)
            ⟨st.a, st.b, st.c, st.d, st.e, st.f, st.g, st.h⟩
  ⟨w32 (st.a + r.a), w32 (st.b + r.b), w32 (st.c + r.c), w32 (st.d + r.d),
   w32 (st.e + r.e), w32 (st.f + r.f), w32 (st.g + r.g), w32 (st.h + r.h)⟩

/-- SHA-256 padding: `0x80`, zeros to 56 mod 64, then the 64-bit bit length. -/
def sha256pad (msg : List Nat) : List Nat :=
  msg ++ 128 :: (List.replicate ((119 - msg.length % 64) % 64) 0 ++ bytesBE 8 (8 * msg.length))

/-- SHA-256 digest (32 bytes) of a byte list. -/
def sha256bytes (msg : List Nat) : List Nat :=
  let st := (chunkList 64 (sha256pad msg)).foldl processBlock shaH0
  bytesBE 4 st.a ++ bytesBE 4 st.b ++ bytesBE 4 st.c ++ bytesBE 4 st.d ++
  bytesBE 4 st.e ++ bytesBE 4 st.f ++ bytesBE 4 st.g ++ bytesBE 4 st.h

/-- Lowercase hex digit. -/
def hexDigit (n : Nat) : Char := if n < 10 then Char.ofNat (48 + n) else Char.ofNat (87 + n)

/-- Two lowercase hex characters of one byte. -/
def byteToHex (b : Nat) : List Char := [hexDigit (b / 16 % 16), hexDigit (b % 16)]

/-- Lowercase hex digest string, as `hashlib.sha256(...).hexdigest()`. -/
def sha256hex (msg : List Nat) : String :=
  String.mk ((sha256bytes msg).foldr (fun b acc => byteToHex b ++ acc) [])

/-- First `n` characters of a string, as Python string slicing `s[:n]`. -/
def takeChars (s : String) (n : Nat) : String := String.mk (s.data.take n)

/-- `get_file_hash`: SHA-256 of the file read in 4096-byte chunks (each chunk
fed to the incremental hash, i.e. the digest of their concatenation),
truncated to the first 16 hex characters (`hexdigest()[:16]`). -/
def get_file_hash (content : List Nat) : String :=
  takeChars (sha256hex ((chunkList 4096 content).foldl (fun acc blk => acc ++ blk) [])) 16

/-- ASCII lowercase of one character, as CPython lowercases ASCII. -/
def lowerChar (c : Char) : Char :=
  if 65 ≤ c.toNat ∧ c.toNat ≤ 90 then Char.ofNat (c.toNat + 32) else c

/-- Lowercase of a string (`str.lower()`), on the ASCII range. -/
def lowerStr (s : String) : String := String.mk (s.data.map lowerChar)

/-- Split a character list at every occurrence of `c`. -/
def splitChar (c : Char) : List Char → List (List Char)
  | [] => [[]]
  | x :: xs =>
    match splitChar c xs with
    | [] => [[]]
    | r :: rs => if x = c then [] :: r :: rs else (x :: r) :: rs

/-- Index of the last occurrence of `c` (`str.rfind`), scanning from `i`. -/
def rfindAux (c : Char) : List Char → Nat → Option Nat
  | [], _ => none
  | x :: xs, i =>
    match rfindAux c xs (i + 1) with
    | some j => some j
    | none => if x = c then some i else none

/-- `pathlib.PurePosixPath(p).name`: the last path component, with empty
components and lone `.` components dropped. -/
def pathName (p : String) : List Char :=
  (((splitChar '/' p.data).filter (fun comp => !(comp.isEmpty) && comp ≠ ['.'])).getLast?).getD []

/-- `pathlib.PurePosixPath(p).suffix`: the extension of the final component.
CPython: `i = name.rfind('.'); name[i:] if 0 < i < len(name) - 1 else ''`. -/
def pathSuffix (p : String) : String :=
  let name := pathName p
  match rfindAux '.' name 0 with
  | some i => if 0 < i ∧ i + 1 < name.length then String.mk (name.drop i) else String.mk []
  | none => String.mk []

/-- One clip's metadata record (`clip_data` in `upload_clip`). -/
structure ClipRecord where
  clip_id : String
  filename : String
  original_filename : String
  upload_time : String
  file_size : Nat
  file_hash : String
  url : String
deriving DecidableEq, Repr

/-- The metadata document: `{"clips": [...]}`. -/
structure MetadataDocument where
  clips : List ClipRecord
deriving DecidableEq, Repr

/-- The metadata backing file on disk: absent, unreadable-or-unparseable
content, or a valid serialization of a document. -/
inductive MetaFile where
  | absent
  | invalid (junk : String)
  | valid (doc : MetadataDocument)
deriving DecidableEq, Repr

/-- `load_metadata`: `json.load` of the backing file, with `except: return
{"clips": []}` on any read or parse failure. -/
def load_metadata : MetaFile → MetadataDocument
  | MetaFile.valid d => d
  | _ => ⟨[]⟩

/-- `save_metadata`: `json.dump` overwrites the backing file with a valid
serialization of `d`. -/
def save_metadata (d : MetadataDocument) : MetaFile := MetaFile.valid d

/-- The upload directory: stored filename to blob content. -/
abbrev BlobStore := List (String × List Nat)

/-- Content of the blob named `n`, if that file exists. -/
def blobLookup : BlobStore → String → Option (List Nat)
  | [], _ => none
  | (k, v) :: rest, n => if k = n then some v else blobLookup rest n

/-- Remove the blob named `n` if present (`unlink`, tolerating absence). -/
def blobUnlink (bs : BlobStore) (n : String) : BlobStore :=
  bs.filter (fun e => decide (e.1 ≠ n))

/-- Write content `c` to the blob named `n` (`file.save`), overwriting. -/
def blobWrite (bs : BlobStore) (n : String) (c : List Nat) : BlobStore :=
  (n, c) :: blobUnlink bs n

/-- The whole persistent state of the service. -/
structure ServerState where
  metaFile : MetaFile
  blobs : BlobStore
deriving DecidableEq, Repr

/-- State at process start: metadata file initialized to `{"clips": []}`,
empty upload directory. -/
def initState : ServerState := ⟨save_metadata ⟨[]⟩, []⟩

/-- `BASE_URL` with its default value. -/
def BASE_URL : String := "http://localhost:5000"

/-- `allowed_extensions`. -/
def allowed_extensions : List String := [".mp4", ".avi", ".mov", ".mkv", ".webm"]

/-- Response of the upload endpoint: `err` carries the HTTP status and the
error body; `ok` is the 200 success body (its `message` field is constant). -/
inductive UploadResp where
  | err (status : Nat) (error : String)
  | ok (clip_id url download_url message : String)
deriving DecidableEq, Repr

/-- Response of the download endpoint: `notFound` is 404 with an error body,
`file` is 200 with the blob bytes. -/
inductive GetResp where
  | notFound (error : String)
  | file (content : List Nat)
deriving DecidableEq, Repr

/-- Response of the delete endpoint: `notFound` is 404, `ok` is 200. -/
inductive DeleteResp where
  | notFound (error : String)
  | ok (message : String)
deriving DecidableEq, Repr

/-- HTTP status of a download response. -/
def getStatus : GetResp → Nat
  | GetResp.notFound _ => 404
  | GetResp.file _ => 200

/-- HTTP status of a delete response. -/
def deleteStatus : DeleteResp → Nat
  | DeleteResp.notFound _ => 404
  | DeleteResp.ok _ => 200

/-- The record `upload_clip` appends for an accepted upload: lines 105-113 of
`app.py`, with `file_size = filepath.stat().st_size` and
`file_hash = get_file_hash(filepath)` of the just-written blob. -/
def uploadRecord (filename : String) (content : List Nat) (gen_id now : String) : ClipRecord :=
  { clip_id := gen_id,
    filename := gen_id ++ lowerStr (pathSuffix filename),
    original_filename := filename,
    upload_time := now,
    file_size := content.length,
    file_hash := takeChars (sha256hex content) 16,
    url := BASE_URL ++ ("/clips/" ++ gen_id) }

/-- `upload_clip` (`POST /upload`).  Inputs beyond the state: whether a
`file` part is present, its filename and content, the generated clip id
(`generate_clip_id()`, random) and the current time (`datetime.now`). -/
def upload_clip (s : ServerState) (filePresent : Bool) (filename : String)
    (content : List Nat) (gen_id now : String) : UploadResp × ServerState :=
  if filePresent = false then
    (UploadResp.err 400 ("No file provided"), s)
  else if filename = "" then
    (UploadResp.err 400 ("No file selected"), s)
  else if allowed_extensions.contains (lowerStr (pathSuffix filename)) = false then
    -- source message also prints the allowed set
    (UploadResp.err 400 ("Invalid file type"), s)
  else
    let file_ext := lowerStr (pathSuffix filename)
    let safe_filename := gen_id ++ file_ext
    let blobs1 := blobWrite s.blobs safe_filename content
    let stored := (blobLookup blobs1 safe_filename).getD []
    let clip_data : ClipRecord :=
      { clip_id := gen_id,
        filename := safe_filename,
        original_filename := filename,
        upload_time := now,
        file_size := stored.length,
        file_hash := get_file_hash stored,
        url := BASE_URL ++ ("/clips/" ++ gen_id) }
    let metadata := load_metadata s.metaFile
    (UploadResp.ok gen_id (BASE_URL ++ ("/view/" ++ gen_id)) (BASE_URL ++ ("/clips/" ++ gen_id))
       ("Clip uploaded successfully"),
     { metaFile := save_metadata ⟨metadata.clips ++ [clip_data]⟩, blobs := blobs1 })

/-- `list_clips` (`GET /clips`): the full metadata document, status 200. -/
def list_clips (s : ServerState) : MetadataDocument × Nat :=
  (load_metadata s.metaFile, 200)

/-- `get_clip` (`GET /clips/<clip_id>`). -/
def get_clip (s : ServerState) (clip_id : String) : GetResp :=
  let metadata := load_metadata s.metaFile
  match metadata.clips.find? (fun c => c.clip_id == clip_id) with
  | none => GetResp.notFound ("Clip not found")
  | some clip =>
    match blobLookup s.blobs clip.filename with
    | none => GetResp.notFound ("File not found on server")
    | some content => GetResp.file content

/-- `delete_clip` (`DELETE /delete/<clip_id>`). -/
def delete_clip (s : ServerState) (clip_id : String) : DeleteResp × ServerState :=
  let metadata := load_metadata s.metaFile
  match metadata.clips.find? (fun c => c.clip_id == clip_id) with
  | none => (DeleteResp.notFound ("Clip not found"), s)
  | some clip =>
    let blobs1 := blobUnlink s.blobs clip.filename
    (DeleteResp.ok ("Clip " ++ (clip_id ++ " deleted")),
     { metaFile := save_metadata ⟨metadata.clips.filter (fun c => c.clip_id != clip_id)⟩,
       blobs := blobs1 })

/-- A mutating API operation (the download and list endpoints do not change
state). -/
inductive ApiOp where
  | upload (filePresent : Bool) (filename : String) (content : List Nat) (gen_id now : String)
  | delete (clip_id : String)
deriving DecidableEq, Repr

/-- State after one operation. -/
def runOp (s : ServerState) : ApiOp → ServerState
  | ApiOp.upload fp fn content gid now => (upload_clip s fp fn content gid now).2
  | ApiOp.delete cid => (delete_clip s cid).2

/-- State after a sequence of operations. -/
def runOps (s : ServerState) (ops : List ApiOp) : ServerState := ops.foldl runOp s

/-- Whether `upload_clip` accepts the request (all three gates pass). -/
def acceptUpload (filePresent : Bool) (filename : String) : Bool :=
  filePresent && (filename != "") &&
    allowed_extensions.contains (lowerStr (pathSuffix filename))

/-- Modelled from the spec: the pure, in-memory effect of one operation on
the metadata document — the records "implied by the sequence" against which
the on-disk document is compared. -/
def specStep (d : MetadataDocument) : ApiOp → MetadataDocument
  | ApiOp.upload fp fn content gid now =>
    if acceptUpload fp fn then ⟨d.clips ++ [uploadRecord fn content gid now]⟩ else d
  | ApiOp.delete cid =>
    if d.clips.any (fun c => c.clip_id == cid) then
      ⟨d.clips.filter (fun c => c.clip_id != cid)⟩
    else d

/-- Every accepted upload in `ops` uses a generated id absent from the
document at the moment of that upload. -/
def freshIds (d : MetadataDocument) : List ApiOp → Bool
  | [] => true
  | op :: rest =>
    (match op with
     | ApiOp.upload fp fn _ gid _ =>
       !(acceptUpload fp fn) || !(d.clips.any (fun c => c.clip_id == gid))
     | ApiOp.delete _ => true)
    && freshIds (specStep d op) rest

/-- A populated state used to instantiate theorems: one record, one blob. -/
def wState : ServerState :=
  ⟨save_metadata ⟨[⟨"id1", "id1.mp4", "v.mp4", "t", 1, "h", "u"⟩]⟩, [("id1.mp4", [7])]⟩

/-- A state whose document holds two records sharing `clip_id = "dup"`. -/
def dupState : ServerState :=
  ⟨save_metadata ⟨[⟨"dup", "dup.mp4", "a.mp4", "t1", 1, "h1", "u1"⟩,
                   ⟨"solo", "solo.mov", "b.mov", "t2", 2, "h2", "u2"⟩,
                   ⟨"dup", "dup.avi", "c.avi", "t3", 3, "h3", "u3"⟩]⟩,
   [("dup.mp4", [1]), ("solo.mov", [2]), ("dup.avi", [3])]⟩

/-! ## Helper lemmas -/

theorem foldlAppend (xs : List (List Nat)) :
    ∀ acc : List Nat, xs.foldl (fun a b => a ++ b) acc = acc ++ xs.flatten := by
  induction xs with
  | nil => intro acc; simp
  | cons x xs ih => intro acc; simp [ih, List.append_assoc]

theorem chunkAux_flatten {α : Type} (n : Nat) (hn : 0 < n) :
    ∀ (fuel : Nat) (l : List α), l.length ≤ fuel → (chunkAux n fuel l).flatten = l := by
  intro fuel
  induction fuel with
  | zero =>
    intro l hl
    cases l with
    | nil => rfl
    | cons x xs => simp at hl
  | succ fuel ih =>
    intro l hl
    cases l with
    | nil => rfl
    | cons x xs =>
      have hdrop : ((x :: xs).drop n).length ≤ fuel := by
        rw [List.length_drop, List.length_cons]
        simp only [List.length_cons] at hl
        omega
      simp only [chunkAux, List.flatten_cons, ih _ hdrop]
      exact List.take_append_drop n (x :: xs)

theorem chunkList_flatten {α : Type} (n : Nat) (hn : 0 < n) (l : List α) :
    (chunkList n l).flatten = l :=
  chunkAux_flatten n hn l.length l (le_refl _)

theorem get_file_hash_eq (content : List Nat) :
    get_file_hash content = takeChars (sha256hex content) 16 := by
  unfold get_file_hash
  rw [foldlAppend, List.nil_append, chunkList_flatten 4096 (by norm_num)]

theorem blobLookup_unlink_self (bs : BlobStore) (n : String) :
    blobLookup (blobUnlink bs n) n = none := by
  induction bs with
  | nil => rfl
  | cons e rest ih =>
    simp only [blobUnlink, decide_not, List.filter_cons] at ih ⊢
    by_cases hk : e.1 = n
    · simp [hk, ih]
    · simp [hk, blobLookup, ih]

theorem upload_clip_noFile (s : ServerState) (fn : String) (content : List Nat)
    (gid now : String) :
    upload_clip s false fn content gid now = (UploadResp.err 400 ("No file provided"), s) := rfl

theorem upload_clip_emptyName (s : ServerState) (content : List Nat) (gid now : String) :
    upload_clip s true ("") content gid now = (UploadResp.err 400 ("No file selected"), s) := rfl

theorem upload_clip_badExt (s : ServerState) (fn : String) (content : List Nat)
    (gid now : String) (h1 : ¬ fn = "")
    (h2 : allowed_extensions.contains (lowerStr (pathSuffix fn)) = false) :
    upload_clip s true fn content gid now = (UploadResp.err 400 ("Invalid file type"), s) := by
  have h2' : lowerStr (pathSuffix fn) ∉ allowed_extensions := by simpa using h2
  simp [upload_clip, h1, h2']

theorem upload_clip_accepted (s : ServerState) (fn : String) (content : List Nat)
    (gid now : String) (h1 : ¬ fn = "")
    (h2 : allowed_extensions.contains (lowerStr (pathSuffix fn)) = true) :
    upload_clip s true fn content gid now =
      (UploadResp.ok gid (BASE_URL ++ ("/view/" ++ gid)) (BASE_URL ++ ("/clips/" ++ gid))
         ("Clip uploaded successfully"),
       ⟨save_metadata ⟨(load_metadata s.metaFile).clips ++ [uploadRecord fn content gid now]⟩,
        blobWrite s.blobs (gid ++ lowerStr (pathSuffix fn)) content⟩) := by
  have h2' : lowerStr (pathSuffix fn) ∈ allowed_extensions := by simpa using h2
  simp [upload_clip, h1, h2', uploadRecord, blobWrite, blobLookup, get_file_hash_eq]

theorem delete_clip_missing (s : ServerState) (cid : String)
    (h : (load_metadata s.metaFile).clips.find? (fun c => c.clip_id == cid) = none) :
    delete_clip s cid = (DeleteResp.notFound ("Clip not found"), s) := by
  simp only [delete_clip]
  rw [h]

theorem delete_clip_found (s : ServerState) (cid : String) (clip : ClipRecord)
    (h : (load_metadata s.metaFile).clips.find? (fun c => c.clip_id == cid) = some clip) :
    delete_clip s cid =
      (DeleteResp.ok ("Clip " ++ (cid ++ " deleted")),
       ⟨save_metadata ⟨(load_metadata s.metaFile).clips.filter (fun c => c.clip_id != cid)⟩,
        blobUnlink s.blobs clip.filename⟩) := by
  simp only [delete_clip]
  rw [h]

theorem any_eq_false_of_find?_none {p : ClipRecord → Bool} {l : List ClipRecord}
    (h : l.find? p = none) : l.any p = false := by
  rw [List.find?_eq_none] at h
  rw [Bool.eq_false_iff]
  intro hany
  obtain ⟨x, hx, hpx⟩ := List.any_eq_true.mp hany
  exact h x hx hpx

theorem any_eq_true_of_find?_some {p : ClipRecord → Bool} {l : List ClipRecord}
    {a : ClipRecord} (h : l.find? p = some a) : l.any p = true :=
  List.any_eq_true.mpr ⟨a, List.mem_of_find?_eq_some h, List.find?_some h⟩

theorem loadRunOp (s : ServerState) (op : ApiOp) :
    load_metadata ((runOp s op).metaFile) = specStep (load_metadata s.metaFile) op := by
  cases op with
  | upload fp fn content gid now =>
    cases fp with
    | false => simp [runOp, upload_clip_noFile, specStep, acceptUpload]
    | true =>
      by_cases hfn : fn = ""
      · subst hfn
        simp [runOp, upload_clip_emptyName, specStep, acceptUpload]
      · cases hext : allowed_extensions.contains (lowerStr (pathSuffix fn)) with
        | false =>
          have hext' : lowerStr (pathSuffix fn) ∉ allowed_extensions := by simpa using hext
          have hacc : acceptUpload true fn = false := by simp [acceptUpload, hext']
          simp only [runOp, specStep, upload_clip_badExt s fn content gid now hfn hext, hacc]
          simp
        | true =>
          have hext' : lowerStr (pathSuffix fn) ∈ allowed_extensions := by simpa using hext
          have hacc : acceptUpload true fn = true := by simp [acceptUpload, hext', hfn]
          simp only [runOp, specStep, upload_clip_accepted s fn content gid now hfn hext, hacc]
          simp [load_metadata, save_metadata]
  | delete cid =>
    cases h : (load_metadata s.metaFile).clips.find? (fun c => c.clip_id == cid) with
    | none =>
      have hany := any_eq_false_of_find?_none h
      simp only [runOp, specStep, delete_clip_missing s cid h, hany]
      simp
    | some clip =>
      have hany := any_eq_true_of_find?_some h
      simp only [runOp, specStep, delete_clip_found s cid clip h, hany]
      simp [load_metadata, save_metadata]

theorem runOps_load (ops : List ApiOp) : ∀ s : ServerState,
    load_metadata ((runOps s ops).metaFile) = ops.foldl specStep (load_metadata s.metaFile) := by
  induction ops with
  | nil => intro _; rfl
  | cons op rest ih =>
    intro s
    have h1 : runOps s (op :: rest) = runOps (runOp s op) rest := rfl
    rw [h1, ih (runOp s op), loadRunOp, List.foldl_cons]

theorem specFold_nodup (ops : List ApiOp) : ∀ d : MetadataDocument,
    freshIds d ops = true → (d.clips.map (fun c => c.clip_id)).Nodup →
    (((ops.foldl specStep d).clips.map (fun c => c.clip_id))).Nodup := by
  induction ops with
  | nil => intro d _ h2; exact h2
  | cons op rest ih =>
    intro d h1 h2
    rw [List.foldl_cons]
    simp only [freshIds, Bool.and_eq_true] at h1
    obtain ⟨hop, hrest⟩ := h1
    refine ih _ hrest ?_
    cases op with
    | upload fp fn content gid now =>
      by_cases hacc : acceptUpload fp fn = true
      · have hg : d.clips.any (fun c => c.clip_id == gid) = false := by
          simp only [hacc, Bool.not_true, Bool.false_or, Bool.not_eq_true'] at hop
          exact hop
        have hnotin : gid ∉ d.clips.map (fun c => c.clip_id) := by
          intro hmem
          obtain ⟨c, hc, hcid⟩ := List.mem_map.mp hmem
          have : d.clips.any (fun c => c.clip_id == gid) = true :=
            List.any_eq_true.mpr ⟨c, hc, by simp [hcid]⟩
          rw [hg] at this
          cases this
        simp only [specStep, if_pos hacc, List.map_append]
        rw [List.nodup_append]
        refine ⟨h2, List.nodup_singleton _, ?_⟩
        simp only [uploadRecord, List.map_cons, List.map_nil]
        intro a ha hb
        simp only [List.mem_singleton] at hb
        exact hnotin (hb ▸ ha)
      · simp only [specStep, if_neg hacc]
        exact h2
    | delete cid =>
      simp only [specStep]
      by_cases hany : d.clips.any (fun c => c.clip_id == cid) = true
      · simp only [if_pos hany]
        have hsub : ((d.clips.filter (fun c => c.clip_id != cid)).map (fun c => c.clip_id)).Sublist
            (d.clips.map (fun c => c.clip_id)) :=
          (List.filter_sublist _).map _
        exact h2.sublist hsub
      · simp only [if_neg hany]
        exact h2

/-! ## Claim theorems -/

/-- Claim C1: a successful upload of content `C` with an allowed extension
appends exactly one new record to the metadata document, whose `clip_id`
equals the one in the response, whose `file_size` is the byte length of `C`,
and whose `file_hash` is the first 16 hex characters of the SHA-256 digest
of `C`. -/
theorem upload_then_list (s : ServerState) (fp : Bool) (fn : String) (content : List Nat)
    (gid now cid u du msg : String)
    (h : (upload_clip s fp fn content gid now).1 = UploadResp.ok cid u du msg) :
    ∃ rec : ClipRecord,
      (load_metadata (upload_clip s fp fn content gid now).2.metaFile).clips
        = (load_metadata s.metaFile).clips ++ [rec]
      ∧ rec.clip_id = cid
      ∧ rec.file_size = content.length
      ∧ rec.file_hash = takeChars (sha256hex content) 16 := by
  cases fp with
  | false => rw [upload_clip_noFile] at h; simp at h
  | true =>
    by_cases hfn : fn = ""
    · subst hfn; rw [upload_clip_emptyName] at h; simp at h
    · cases hext : allowed_extensions.contains (lowerStr (pathSuffix fn)) with
      | false => rw [upload_clip_badExt s fn content gid now hfn hext] at h; simp at h
      | true =>
        rw [upload_clip_accepted s fn content gid now hfn hext] at h ⊢
        simp only [UploadResp.ok.injEq] at h
        obtain ⟨hcid, -, -, -⟩ := h
        refine ⟨uploadRecord fn content gid now, ?_, ?_, rfl, rfl⟩
        · simp [load_metadata, save_metadata]
        · simp [uploadRecord, hcid]

/-- Witness for C1: uploading empty content as `a.mp4`. -/
theorem upload_then_list_witness :
    ∃ rec : ClipRecord,
      (load_metadata (upload_clip initState true ("a.mp4") [] ("cafe0001") ("t0")).2.metaFile).clips
        = (load_metadata initState.metaFile).clips ++ [rec]
      ∧ rec.clip_id = "cafe0001"
      ∧ rec.file_size = List.length ([] : List Nat)
      ∧ rec.file_hash = takeChars (sha256hex []) 16 :=
  upload_then_list initState true ("a.mp4") [] ("cafe0001") ("t0") ("cafe0001")
    ("http://localhost:5000/view/cafe0001") ("http://localhost:5000/clips/cafe0001")
    ("Clip uploaded successfully") (by decide)

/-- Claim C2: a successful delete finds the record, removes the blob
(tolerating prior absence), removes the record and persists the updated
document; afterwards the download endpoint answers NotFound for that
`clip_id` and the list endpoint no longer mentions it. -/
theorem delete_removes_record_and_blob (s : ServerState) (cid msg : String)
    (h : (delete_clip s cid).1 = DeleteResp.ok msg) :
    ∃ clip : ClipRecord,
      (load_metadata s.metaFile).clips.find? (fun c => c.clip_id == cid) = some clip
      ∧ (delete_clip s cid).2.blobs = blobUnlink s.blobs clip.filename
      ∧ blobLookup (delete_clip s cid).2.blobs clip.filename = none
      ∧ (delete_clip s cid).2.metaFile
          = save_metadata ⟨(load_metadata s.metaFile).clips.filter (fun c => c.clip_id != cid)⟩
      ∧ get_clip (delete_clip s cid).2 cid = GetResp.notFound ("Clip not found")
      ∧ ∀ c ∈ (list_clips (delete_clip s cid).2).1.clips, c.clip_id ≠ cid := by
  cases hf : (load_metadata s.metaFile).clips.find? (fun c => c.clip_id == cid) with
  | none => rw [delete_clip_missing s cid hf] at h; simp at h
  | some clip =>
    rw [delete_clip_found s cid clip hf] at h ⊢
    have hfilter : ∀ c ∈ (load_metadata s.metaFile).clips.filter
        (fun c => c.clip_id != cid), c.clip_id ≠ cid := by
      intro c hc
      have := (List.mem_filter.mp hc).2
      simpa using this
    refine ⟨clip, rfl, rfl, blobLookup_unlink_self _ _, rfl, ?_, ?_⟩
    · have hnone : (load_metadata (save_metadata
          ⟨(load_metadata s.metaFile).clips.filter (fun c => c.clip_id != cid)⟩)).clips.find?
            (fun c => c.clip_id == cid) = none := by
        simp only [load_metadata, save_metadata]
        exact List.find?_eq_none.mpr (fun c hc => by simp [hfilter c hc])
      simp [get_clip, hnone]
    · intro c hc
      simp only [list_clips, load_metadata, save_metadata] at hc
      exact hfilter c hc

/-- Witness for C2: delete the only clip of a one-record state. -/
theorem delete_removes_record_and_blob_witness :
    ∃ clip : ClipRecord,
      (load_metadata wState.metaFile).clips.find? (fun c => c.clip_id == "id1") = some clip
      ∧ (delete_clip wState ("id1")).2.blobs = blobUnlink wState.blobs clip.filename
      ∧ blobLookup (delete_clip wState ("id1")).2.blobs clip.filename = none
      ∧ (delete_clip wState ("id1")).2.metaFile
          = save_metadata ⟨(load_metadata wState.metaFile).clips.filter
              (fun c => c.clip_id != "id1")⟩
      ∧ get_clip (delete_clip wState ("id1")).2 ("id1") = GetResp.notFound ("Clip not found")
      ∧ ∀ c ∈ (list_clips (delete_clip wState ("id1")).2).1.clips, c.clip_id ≠ "id1" :=
  delete_removes_record_and_blob wState ("id1") ("Clip id1 deleted") (by decide)

/-- Claim C3 counterexample: `generate_clip_id` performs no uniqueness check,
so a run in which the 8-character random id collides leaves two records with
the same `clip_id` in the document. -/
theorem clip_id_unique_cex :
    ¬ (((load_metadata ((runOps initState
        [ApiOp.upload true ("a.mp4") [] ("aaaa0000") ("t1"),
         ApiOp.upload true ("b.mp4") [] ("aaaa0000") ("t2")]).metaFile)).clips.map
          (fun c => c.clip_id)).Nodup) := by decide

/-- Claim C3 (amended): if every accepted upload draws a generated id that
is not already a `clip_id` of the current document, then `clip_id` stays
unique across all records in every reachable state. -/
theorem clip_id_unique_of_fresh (ops : List ApiOp) (s : ServerState)
    (h1 : freshIds (load_metadata s.metaFile) ops = true)
    (h2 : ((load_metadata s.metaFile).clips.map (fun c => c.clip_id)).Nodup) :
    (((load_metadata ((runOps s ops).metaFile)).clips.map (fun c => c.clip_id))).Nodup := by
  rw [runOps_load]
  exact specFold_nodup ops _ h1 h2

/-- Witness for the amended C3: two uploads with distinct fresh ids. -/
theorem clip_id_unique_of_fresh_witness :
    (((load_metadata ((runOps initState
        [ApiOp.upload true ("a.mp4") [] ("aaaa1111") ("t1"),
         ApiOp.upload true ("b.mp4") [] ("bbbb2222") ("t2")]).metaFile)).clips.map
          (fun c => c.clip_id))).Nodup :=
  clip_id_unique_of_fresh
    [ApiOp.upload true ("a.mp4") [] ("aaaa1111") ("t1"),
     ApiOp.upload true ("b.mp4") [] ("bbbb2222") ("t2")]
    initState (by decide) (by decide)

/-- Claim C4: an upload with no file part, an empty filename, or a
lower-cased extension outside the allowed set is rejected with a 400 client
error and leaves the whole state (document and blob store) unchanged. -/
theorem upload_rejects_invalid (s : ServerState) (fp : Bool) (fn : String) (content : List Nat)
    (gid now : String)
    (h : fp = false ∨ fn = "" ∨ allowed_extensions.contains (lowerStr (pathSuffix fn)) = false) :
    (∃ e, (upload_clip s fp fn content gid now).1 = UploadResp.err 400 e)
    ∧ (upload_clip s fp fn content gid now).2 = s := by
  rcases h with h | h | h
  · subst h; rw [upload_clip_noFile]; exact ⟨⟨_, rfl⟩, rfl⟩
  · subst h
    cases fp with
    | false => rw [upload_clip_noFile]; exact ⟨⟨_, rfl⟩, rfl⟩
    | true => rw [upload_clip_emptyName]; exact ⟨⟨_, rfl⟩, rfl⟩
  · cases fp with
    | false => rw [upload_clip_noFile]; exact ⟨⟨_, rfl⟩, rfl⟩
    | true =>
      by_cases hfn : fn = ""
      · subst hfn; rw [upload_clip_emptyName]; exact ⟨⟨_, rfl⟩, rfl⟩
      · rw [upload_clip_badExt s fn content gid now hfn h]; exact ⟨⟨_, rfl⟩, rfl⟩

/-- Witness for C4: uploading `evil.exe` is rejected and changes nothing. -/
theorem upload_rejects_invalid_witness :
    (∃ e, (upload_clip initState true ("evil.exe") [1, 2] ("g1") ("t")).1
       = UploadResp.err 400 e)
    ∧ (upload_clip initState true ("evil.exe") [1, 2] ("g1") ("t")).2 = initState :=
  upload_rejects_invalid initState true ("evil.exe") [1, 2] ("g1") ("t")
    (Or.inr (Or.inr (by decide)))

/-- Claim C5: saving and re-loading is the identity, and after any sequence
of upload and delete operations the document loaded from disk is exactly the
document implied by that sequence (the pure fold of `specStep`). -/
theorem metadata_round_trip :
    (∀ d : MetadataDocument, load_metadata (save_metadata d) = d)
    ∧ ∀ (ops : List ApiOp) (s : ServerState),
        load_metadata ((runOps s ops).metaFile)
          = ops.foldl specStep (load_metadata s.metaFile) :=
  ⟨fun _ => rfl, fun ops s => runOps_load ops s⟩

/-- Claim C6: deleting a `clip_id` that matches no record answers NotFound
(status 404, not a server error) and leaves the state untouched — in
particular no save of the document happens on this path. -/
theorem delete_missing_notfound (s : ServerState) (cid : String)
    (h : ∀ c ∈ (load_metadata s.metaFile).clips, c.clip_id ≠ cid) :
    (delete_clip s cid).1 = DeleteResp.notFound ("Clip not found")
    ∧ deleteStatus (delete_clip s cid).1 = 404
    ∧ (delete_clip s cid).2 = s := by
  have hf : (load_metadata s.metaFile).clips.find? (fun c => c.clip_id == cid) = none :=
    List.find?_eq_none.mpr (fun c hc => by simp [h c hc])
  rw [delete_clip_missing s cid hf]
  exact ⟨rfl, rfl, rfl⟩

/-- Witness for C6: deleting from the pristine state. -/
theorem delete_missing_notfound_witness :
    (delete_clip initState ("zzz")).1 = DeleteResp.notFound ("Clip not found")
    ∧ deleteStatus (delete_clip initState ("zzz")).1 = 404
    ∧ (delete_clip initState ("zzz")).2 = initState :=
  delete_missing_notfound initState ("zzz")
    (by simp [initState, load_metadata, save_metadata])

/-- Claim C7: the download endpoint answers 404 exactly when no record
matches or the matched record's blob is absent — both through the same
externally observable category (status 404 with an error body) — and
otherwise returns the blob content. -/
theorem get_clip_notfound_characterization (s : ServerState) (cid : String) :
    (getStatus (get_clip s cid) = 404 ↔
      ((load_metadata s.metaFile).clips.find? (fun c => c.clip_id == cid) = none
       ∨ ∃ clip, (load_metadata s.metaFile).clips.find? (fun c => c.clip_id == cid) = some clip
           ∧ blobLookup s.blobs clip.filename = none))
    ∧ (∀ clip content,
        (load_metadata s.metaFile).clips.find? (fun c => c.clip_id == cid) = some clip →
        blobLookup s.blobs clip.filename = some content →
        get_clip s cid = GetResp.file content)
    ∧ (∀ e, get_clip s cid = GetResp.notFound e → getStatus (get_clip s cid) = 404) := by
  refine ⟨?_, ?_, ?_⟩
  · cases hf : (load_metadata s.metaFile).clips.find? (fun c => c.clip_id == cid) with
    | none => simp [get_clip, hf, getStatus]
    | some clip =>
      cases hb : blobLookup s.blobs clip.filename with
      | none => simp [get_clip, hf, hb, getStatus]
      | some content =>
        simp only [get_clip, hf, hb, getStatus]
        constructor
        · intro hcontra; cases hcontra
        · rintro (hcontra | ⟨clip2, hclip2, hb2⟩)
          · cases hcontra
          · cases hclip2
            rw [hb] at hb2
            cases hb2
  · intro clip content hf hb
    simp [get_clip, hf, hb]
  · intro e he
    rw [he]
    rfl

/-- Witness for C7: downloading the clip of the one-record state yields its
blob content. -/
theorem get_clip_notfound_characterization_witness :
    get_clip wState ("id1") = GetResp.file [7] :=
  (get_clip_notfound_characterization wState ("id1")).2.1
    ⟨"id1", "id1.mp4", "v.mp4", "t", 1, "h", "u"⟩ [7] (by decide) (by decide)

/-- Claim C8: `load_metadata` is total — a valid backing file yields its
parsed document, and a missing or unreadable-or-unparseable file silently
yields the empty document rather than an error. -/
theorem load_metadata_total_recovery :
    (∀ d : MetadataDocument, load_metadata (MetaFile.valid d) = d)
    ∧ load_metadata MetaFile.absent = ⟨[]⟩
    ∧ ∀ junk : String, load_metadata (MetaFile.invalid junk) = ⟨[]⟩ :=
  ⟨fun _ => rfl, rfl, fun _ => rfl⟩

/-- Claim C9: a non-empty filename whose `Path.suffix` is empty (no dot at
all, or a dotfile-style name such as `.mp4`) is rejected with the
invalid-file-type error even when it textually ends in an allowed
extension. -/
theorem upload_no_suffix_rejected (s : ServerState) (fn : String) (content : List Nat)
    (gid now : String) (h1 : ¬ fn = "") (h2 : pathSuffix fn = "") :
    (upload_clip s true fn content gid now).1 = UploadResp.err 400 ("Invalid file type")
    ∧ (upload_clip s true fn content gid now).2 = s := by
  have hext : allowed_extensions.contains (lowerStr (pathSuffix fn)) = false := by
    rw [h2]; decide
  rw [upload_clip_badExt s fn content gid now h1 hext]
  exact ⟨rfl, rfl⟩

/-- Witness for C9: both `video` (no dot) and `.mp4` (dotfile) are
rejected. -/
theorem upload_no_suffix_rejected_witness :
    ((upload_clip initState true ("video") [] ("g1") ("t")).1
        = UploadResp.err 400 ("Invalid file type")
      ∧ (upload_clip initState true ("video") [] ("g1") ("t")).2 = initState)
    ∧ ((upload_clip initState true (".mp4") [] ("g1") ("t")).1
        = UploadResp.err 400 ("Invalid file type")
      ∧ (upload_clip initState true (".mp4") [] ("g1") ("t")).2 = initState) :=
  ⟨upload_no_suffix_rejected initState ("video") [] ("g1") ("t") (by decide) (by decide),
   upload_no_suffix_rejected initState (".mp4") [] ("g1") ("t") (by decide) (by decide)⟩

/-- Claim C10: a successful delete removes every record carrying the given
`clip_id` — the removal is a filter over the whole list — so duplicates do
not survive. -/
theorem delete_filters_all_duplicates (s : ServerState) (cid msg : String)
    (h : (delete_clip s cid).1 = DeleteResp.ok msg) :
    (load_metadata (delete_clip s cid).2.metaFile).clips
      = (load_metadata s.metaFile).clips.filter (fun c => c.clip_id != cid)
    ∧ ∀ c ∈ (load_metadata (delete_clip s cid).2.metaFile).clips, c.clip_id ≠ cid := by
  cases hf : (load_metadata s.metaFile).clips.find? (fun c => c.clip_id == cid) with
  | none => rw [delete_clip_missing s cid hf] at h; simp at h
  | some clip =>
    rw [delete_clip_found s cid clip hf]
    constructor
    · simp [load_metadata, save_metadata]
    · intro c hc
      simp only [load_metadata, save_metadata] at hc
      have := (List.mem_filter.mp hc).2
      simpa using this

/-- Witness for C10: deleting `dup` from a document holding two records with
that id (and one other) leaves only the other record. -/
theorem delete_filters_all_duplicates_witness :
    (load_metadata (delete_clip dupState ("dup")).2.metaFile).clips
      = (load_metadata dupState.metaFile).clips.filter (fun c => c.clip_id != "dup")
    ∧ ∀ c ∈ (load_metadata (delete_clip dupState ("dup")).2.metaFile).clips,
        c.clip_id ≠ "dup" :=
  delete_filters_all_duplicates dupState ("dup") ("Clip dup deleted") (by decide)
